import Mathlib

/-!
Shallow embedding of `video-uploader/upload_youtube.py` (a minimal YouTube
Data API v3 uploader CLI) and proofs about its observable behaviour.

The pure argument processing (`main`'s title derivation, tag splitting,
privacy parsing, request-body construction) is translated directly from the
Python source.  The effectful parts (`get_youtube_client`, the resumable
upload loop of `upload_video`, and `main`'s control flow) are embedded as
functions from explicit inputs (filesystem state, results of the external
OAuth library and of each `next_chunk` call) to a trace of observable events
plus an outcome.
-/

namespace UploadYoutube

/-- Whitespace characters stripped by Python's `str.strip()` (ASCII range). -/
def isPySpace (c : Char) : Bool :=
  c = ' ' || c = '\t' || c = '\n' || c = '\r' || c = '\x0b' || c = '\x0c'

/-- `str.strip()` on a list of characters: drop whitespace from both ends. -/
def stripChars (l : List Char) : List Char :=
  ((l.dropWhile isPySpace).reverse.dropWhile isPySpace).reverse

/-- Python `str.split(",")`: split on every comma, keeping empty pieces. -/
def splitCommaList : List Char → List (List Char)
  | [] => [[]]
  | c :: rest =>
    if c = ',' then [] :: splitCommaList rest
    else
      match splitCommaList rest with
      | [] => [[c]]
      | h :: t => (c :: h) :: t

/-- `main` line 118:
`tags = [t.strip() for t in args.tags.split(",") if t.strip()] if args.tags else []`. -/
def parseTags (s : String) : List String :=
  if s.isEmpty then []
  else
    ((splitCommaList s.toList).map (fun l => String.mk (stripChars l))).filter
      (fun t => t ≠ "")

/-- `os.path.basename` (POSIX): the part of the path after the last slash. -/
def basename (p : String) : String :=
  String.mk ((p.toList.reverse.takeWhile (fun c => c ≠ '/')).reverse)

/-- Length (in characters, including the dot) of the extension that
`os.path.splitext` removes, computed on the REVERSED character list.
Scanning from the end of the path: the extension ends at the last dot,
provided that dot comes after the last slash and the base name has at least
one non-dot character before it (so `.hidden` has no extension). -/
def extLen : List Char → Nat
  | [] => 0
  | c :: rest =>
    if c = '/' then 0
    else if c = '.' then
      if (rest.takeWhile (fun d => d ≠ '/')).any (fun d => d ≠ '.') then 1 else 0
    else
      match extLen rest with
      | 0 => 0
      | m + 1 => m + 2

/-- `os.path.splitext(p)[0]`: the path with its extension removed. -/
def splitextRoot (p : String) : String :=
  String.mk ((p.toList.reverse.drop (extLen p.toList.reverse)).reverse)

/-- `os.path.splitext(os.path.basename(p))[0]`: the default title
derived in `main` line 117. -/
def defaultTitle (p : String) : String :=
  splitextRoot (basename p)

/-- Python `a or b` where `a` is an optional string: `None` and the empty
string are falsy, so both fall through to `b`. -/
def pyOrStr (a : Option String) (b : String) : String :=
  match a with
  | some s => if s = "" then b else s
  | none => b

/-- `main` line 117: `title = args.title or os.path.splitext(os.path.basename(args.video))[0]`. -/
def computeTitle (titleArg : Option String) (video : String) : String :=
  pyOrStr titleArg (defaultTitle video)

/-- The three privacy values of the `--privacy` flag. -/
inductive Privacy where
  | pub
  | unlisted
  | priv
deriving DecidableEq

/-- The command-line string of each `Privacy` value. -/
def privacyName : Privacy → String
  | .pub => "public"
  | .unlisted => "unlisted"
  | .priv => "private"

/-- argparse `choices=["public", "unlisted", "private"]`: which raw strings
the `--privacy` flag accepts (`main` lines 106-111). -/
def parsePrivacy (s : String) : Option Privacy :=
  if s = "public" then some .pub
  else if s = "unlisted" then some .unlisted
  else if s = "private" then some .priv
  else none

/-- The command-line arguments as argparse delivers them: the required
positional `video`, `--title` (no default, hence `Option`), `--description`
(default `""`), `--tags` (default `""`) and `--privacy` (default
`"private"`). -/
structure RawArgs where
  video : String
  title : Option String := none
  description : String := ""
  tags : String := ""
  privacy : String := "private"

/-- An invocation that passes only the positional video path, leaving every
flag at its argparse default. -/
def defaultArgs (video : String) : RawArgs := { video := video }

/-- JSON-ish values appearing in the request body dict. -/
inductive JVal where
  | str : String → JVal
  | arr : List String → JVal
  | obj : List (String × JVal) → JVal

/-- Dict lookup on an association list of JSON fields. -/
def jLookup (k : String) : List (String × JVal) → Option JVal
  | [] => none
  | (k', v) :: rest => if k' = k then some v else jLookup k rest

/-- `upload_video` lines 62-70: the request body.  `snippet` always holds
`title` and `description`; `tags` is added only when the tag argument is
truthy (a non-`None`, non-empty list); `status` holds `privacyStatus`. -/
def mkBody (title description : String) (tags : Option (List String))
    (privacy : String) : List (String × JVal) :=
  let snippet := [("title", JVal.str title), ("description", JVal.str description)]
  let snippet :=
    match tags with
    | some ts => if ts ≠ [] then snippet ++ [("tags", JVal.arr ts)] else snippet
    | none => snippet
  [("snippet", JVal.obj snippet), ("status", JVal.obj [("privacyStatus", JVal.str privacy)])]

/-- The fields of the `snippet` object of a body. -/
def snippetOf (body : List (String × JVal)) : List (String × JVal) :=
  match jLookup "snippet" body with
  | some (JVal.obj l) => l
  | _ => []

/-- The fields of the `status` object of a body. -/
def statusOf (body : List (String × JVal)) : List (String × JVal) :=
  match jLookup "status" body with
  | some (JVal.obj l) => l
  | _ => []

/-- `main` line 128: `tags or None` — an empty list is falsy and becomes
`None`. -/
def orNoneTags (ts : List String) : Option (List String) :=
  if ts = [] then none else some ts

/-- The request body that `main` has `upload_video` build, as a function of
the parsed CLI arguments (`main` lines 117-131 composed with `upload_video`
lines 62-70). -/
def mainRequestBody (ra : RawArgs) (p : Privacy) : List (String × JVal) :=
  mkBody (computeTitle ra.title ra.video) ra.description
    (orNoneTags (parseTags ra.tags)) (privacyName p)

/-- The arguments passed to the `MediaFileUpload` constructor.  `chunksize`
is `some n` when the call site passes the parameter explicitly with value
`n`, and `none` when the call site leaves it at the library default. -/
structure MediaArgs where
  filePath : String
  chunksize : Option Int
  resumable : Bool
deriving DecidableEq

/-- `upload_video` line 72:
`media = MediaFileUpload(file_path, chunksize=-1, resumable=True)`. -/
def mkMediaFileUpload (fp : String) : MediaArgs :=
  { filePath := fp, chunksize := some (-1), resumable := true }

/-- A credential bundle as the script observes it through the OAuth
library: whether it carries an access token, whether that token is expired,
and whether it carries a refresh token.  `tokenId` distinguishes otherwise
identical bundles (distinct serialized contents). -/
structure Creds where
  hasToken : Bool
  expired : Bool
  hasRefreshToken : Bool
  tokenId : Nat
deriving DecidableEq

/-- Modelled from the spec: `creds.valid` is computed by the external OAuth
library, not by code in this repository.  Per the spec's data model
(credentials are replaced when "absent, expired-without-refresh-token, or
invalid"; a "valid non-expired token file" triggers no consent flow), a
credential is valid when it holds an access token that has not expired. -/
def Creds.valid (c : Creds) : Bool :=
  c.hasToken && !c.expired

/-- The filesystem state the script consults: the contents of `token.json`
(`none` when the file is absent), whether `client_secret.json` exists, and
which video paths exist. -/
structure World where
  tokenFile : Option Creds
  clientSecret : Bool
  videoExists : String → Bool

/-- Observable events of one run. -/
inductive Ev where
  | printMsg : String → Ev
  | loadToken : Ev
  | refreshCall : Ev
  | consentFlow : Ev
  | writeToken : Creds → Ev
  | buildClient : Ev
  | apiInsert : List (String × JVal) → Ev
  | printProgress : Nat → Ev
  | printHttpError : String → Ev
  | printVideoId : String → Ev
  | printWatchUrl : String → Ev

/-- The diagnostic printed by `get_youtube_client` when the client secrets
file is missing. -/
def missingSecretMsg : String :=
  "Missing client_secret.json. Put your OAuth client secrets JSON next to this script."

/-- `get_youtube_client` (lines 34-51).  External calls are inputs:
`refreshFn` is the OAuth provider's refresh operation and `flowCreds` the
credentials produced by a completed interactive consent flow.  Returns the
event trace and the credentials the API client is built with (`none` when
the function exits the process). -/
def getYoutubeClient (w : World) (refreshFn : Creds → Creds) (flowCreds : Creds) :
    List Ev × Option Creds :=
  match w.tokenFile with
  | none =>
    if !w.clientSecret then
      ([Ev.printMsg missingSecretMsg], none)
    else
      ([Ev.consentFlow, Ev.writeToken flowCreds, Ev.buildClient], some flowCreds)
  | some c =>
    if !c.valid then
      if c.expired && c.hasRefreshToken then
        ([Ev.loadToken, Ev.refreshCall, Ev.writeToken (refreshFn c), Ev.buildClient],
          some (refreshFn c))
      else if !w.clientSecret then
        ([Ev.loadToken, Ev.printMsg missingSecretMsg], none)
      else
        ([Ev.loadToken, Ev.consentFlow, Ev.writeToken flowCreds, Ev.buildClient],
          some flowCreds)
    else
      ([Ev.loadToken, Ev.buildClient], some c)

/-- The terminal response payload of a finished upload: whether `"id"` is
one of its keys, and that identifier.  (A dict containing `"id"` is
necessarily non-empty, hence truthy, so `response and "id" in response`
reduces to `hasId`.) -/
structure Resp where
  hasId : Bool
  id : String
deriving DecidableEq

/-- What one `request.next_chunk()` call does: return a truthy status whose
progress prints as an integer percentage, return neither status nor
response yet (`silent`), deliver the finished response, or raise an
`HttpError`. -/
inductive ChunkStep where
  | progress : Nat → ChunkStep
  | silent : ChunkStep
  | done : Resp → ChunkStep
  | httpError : String → ChunkStep
deriving DecidableEq

/-- The `while response is None` loop of `upload_video` (lines 77-84), run
against a script of `next_chunk` results.  Returns the printed events and
the final response (`none` when an `HttpError` was caught or the script ran
out). -/
def uploadLoop : List ChunkStep → List Ev × Option Resp
  | [] => ([], none)
  | .progress p :: rest =>
    (Ev.printProgress p :: (uploadLoop rest).fst, (uploadLoop rest).snd)
  | .silent :: rest => uploadLoop rest
  | .done r :: _ => ([], some r)
  | .httpError m :: _ => ([Ev.printHttpError m], none)

/-- How one invocation ends: a normal return from `main` carrying the video
id (process exit code 0), or `sys.exit` with the given code. -/
inductive Outcome where
  | success : String → Outcome
  | exited : Nat → Outcome
deriving DecidableEq

/-- `upload_video` (lines 55-96): build the media upload and the insert
request, run the chunk loop, then either print the id and watch URL and
return the id, or print a failure message and exit 1. -/
def uploadVideo (body : List (String × JVal)) (fp : String)
    (script : List ChunkStep) : List Ev × Outcome :=
  let media := mkMediaFileUpload fp
  let evs0 := [Ev.apiInsert body, Ev.printMsg "Starting upload..."]
  let (evs, r) := uploadLoop script
  match r with
  | some resp =>
    if resp.hasId then
      (evs0 ++ evs ++
        [Ev.printMsg "Upload complete", Ev.printVideoId resp.id,
          Ev.printWatchUrl ("https://youtu.be/" ++ resp.id)],
        Outcome.success resp.id)
    else
      (evs0 ++ evs ++ [Ev.printMsg "The upload failed."], Outcome.exited 1)
  | none =>
    let _ := media
    (evs0 ++ evs ++ [Ev.printMsg "The upload failed."], Outcome.exited 1)

/-- Whether a `next_chunk` script raises an `HttpError` before delivering a
finished response. -/
def errBeforeDone : List ChunkStep → Bool
  | [] => false
  | .httpError _ :: _ => true
  | .done _ :: _ => false
  | .progress _ :: rest => errBeforeDone rest
  | .silent :: rest => errBeforeDone rest

/-- Whether a trace prints a video identifier. -/
def printsVideoId (evs : List Ev) : Bool :=
  evs.any fun e => match e with | Ev.printVideoId _ => true | _ => false

/-- Whether a trace runs the interactive consent flow. -/
def runsConsentFlow (evs : List Ev) : Bool :=
  evs.any fun e => match e with | Ev.consentFlow => true | _ => false

/-- Whether a trace writes the token file. -/
def writesTokenFile (evs : List Ev) : Bool :=
  evs.any fun e => match e with | Ev.writeToken _ => true | _ => false

/-- Whether an event is a credential operation or a network call: reading
or writing the token file, the refresh call, the consent flow, building the
API client, or issuing the insert request. -/
def credNetEv : Ev → Bool
  | Ev.loadToken => true
  | Ev.refreshCall => true
  | Ev.consentFlow => true
  | Ev.writeToken _ => true
  | Ev.buildClient => true
  | Ev.apiInsert _ => true
  | _ => false

/-- `main` (lines 99-131): argparse (whose `choices` check rejects bad
`--privacy` values with exit code 2), then the file-existence check, then
credential acquisition, then the upload. -/
def mainRun (ra : RawArgs) (w : World) (refreshFn : Creds → Creds)
    (flowCreds : Creds) (script : List ChunkStep) : List Ev × Outcome :=
  match parsePrivacy ra.privacy with
  | none =>
    ([Ev.printMsg "usage error: argument --privacy: invalid choice"], Outcome.exited 2)
  | some p =>
    if !w.videoExists ra.video then
      ([Ev.printMsg ("File not found: " ++ ra.video)], Outcome.exited 1)
    else
      let (ev1, credsRes) := getYoutubeClient w refreshFn flowCreds
      match credsRes with
      | none => (ev1, Outcome.exited 1)
      | some _ =>
        let (ev2, out) := uploadVideo (mainRequestBody ra p) ra.video script
        (ev1 ++ ev2, out)

/-! ### Helper lemmas -/

/-- The extension `splitext` removes is always strictly shorter than the
path it is removed from. -/
theorem extLen_lt (l : List Char) (h : l ≠ []) : extLen l < l.length := by
  induction l with
  | nil => exact absurd rfl h
  | cons c rest ih =>
    simp only [extLen, List.length_cons]
    split_ifs with hc hd ha
    · omega
    · have hne : rest ≠ [] := by
        intro he
        subst he
        simp at ha
      have := List.length_pos.mpr hne
      omega
    · omega
    · cases hm : extLen rest with
      | zero => show (0 : Nat) < rest.length + 1; omega
      | succ m =>
        show m + 2 < rest.length + 1
        have hne : rest ≠ [] := by
          intro he
          subst he
          simp [extLen] at hm
        have := ih hne
        rw [hm] at this
        omega

/-- `splitext` never turns a non-empty path into an empty root. -/
theorem splitextRoot_ne_empty (p : String) (h : p ≠ "") : splitextRoot p ≠ "" := by
  intro hcon
  have hl : (p.toList.reverse.drop (extLen p.toList.reverse)).reverse = [] := by
    have := congrArg String.data hcon
    simpa [splitextRoot] using this
  have hp : p.toList ≠ [] := by
    intro hd
    exact h (String.ext (by simpa [String.toList] using hd))
  have hlt : extLen p.toList.reverse < p.toList.reverse.length :=
    extLen_lt _ (by simpa using hp)
  rw [List.reverse_eq_nil_iff, List.drop_eq_nil_iff] at hl
  omega

/-- Every character of every piece of `splitCommaList l` is a non-comma
character of `l`. -/
theorem splitCommaList_chars (l : List Char) :
    ∀ piece ∈ splitCommaList l, ∀ c ∈ piece, c ∈ l ∧ ¬c = ',' := by
  induction l with
  | nil =>
    intro piece hp c hc
    simp [splitCommaList] at hp
    subst hp
    simp at hc
  | cons a rest ih =>
    intro piece hp c hc
    rw [splitCommaList] at hp
    by_cases hcomma : a = ','
    · simp [hcomma] at hp
      rcases hp with hp | hp
      · subst hp; simp at hc
      · have := ih piece hp c hc
        exact ⟨List.mem_cons_of_mem _ this.1, this.2⟩
    · simp only [if_neg hcomma] at hp
      cases hsp : splitCommaList rest with
      | nil =>
        rw [hsp] at hp
        simp at hp
        subst hp
        simp at hc
        subst hc
        exact ⟨List.mem_cons_self _ _, hcomma⟩
      | cons hd tl =>
        rw [hsp] at hp
        rcases List.mem_cons.mp hp with hp | hp
        · subst hp
          rcases List.mem_cons.mp hc with hc | hc
          · subst hc
            exact ⟨List.mem_cons_self _ _, hcomma⟩
          · have hmem : hd ∈ splitCommaList rest := by
              rw [hsp]; exact List.mem_cons_self _ _
            have := ih hd hmem c hc
            exact ⟨List.mem_cons_of_mem _ this.1, this.2⟩
        · have hmem : piece ∈ splitCommaList rest := by
            rw [hsp]; exact List.mem_cons_of_mem _ hp
          have := ih piece hmem c hc
          exact ⟨List.mem_cons_of_mem _ this.1, this.2⟩

/-- A tag string made of nothing but commas and whitespace parses to the
empty tag list. -/
theorem parseTags_all_sep_space (s : String)
    (h : ∀ c ∈ s.toList, c = ',' ∨ isPySpace c = true) : parseTags s = [] := by
  unfold parseTags
  split_ifs with hs
  · rfl
  · rw [List.filter_eq_nil_iff]
    intro t ht
    simp only [List.mem_map] at ht
    obtain ⟨piece, hpiece, rfl⟩ := ht
    have hall : ∀ c ∈ piece, isPySpace c = true := by
      intro c hc
      have hmem := splitCommaList_chars s.toList piece hpiece c hc
      rcases h c hmem.1 with h1 | h1
      · exact absurd h1 hmem.2
      · exact h1
    have hstrip : stripChars piece = [] := by
      unfold stripChars
      rw [List.dropWhile_eq_nil_iff.mpr hall]
      rfl
    simp [hstrip]

/-- After an `HttpError` with no prior finished response, the upload loop
ends with no response, logs the error, and prints no video id. -/
theorem uploadLoop_err (script : List ChunkStep) (h : errBeforeDone script = true) :
    (uploadLoop script).snd = none ∧
    (∃ m, Ev.printHttpError m ∈ (uploadLoop script).fst) ∧
    printsVideoId (uploadLoop script).fst = false := by
  induction script with
  | nil => simp [errBeforeDone] at h
  | cons step rest ih =>
    cases step with
    | progress p =>
      obtain ⟨h1, ⟨m, hm⟩, h3⟩ := ih h
      refine ⟨by simpa [uploadLoop] using h1, ⟨m, ?_⟩, ?_⟩
      · simp only [uploadLoop, List.mem_cons]
        exact Or.inr hm
      · simpa [uploadLoop, printsVideoId] using h3
    | silent =>
      obtain ⟨h1, ⟨m, hm⟩, h3⟩ := ih h
      exact ⟨by simpa [uploadLoop] using h1, ⟨m, by simpa [uploadLoop] using hm⟩,
        by simpa [uploadLoop, printsVideoId] using h3⟩
    | done r => simp [errBeforeDone] at h
    | httpError m =>
      refine ⟨rfl, ⟨m, by simp [uploadLoop]⟩, rfl⟩

example : parseTags "cats, dogs ,, " = ["cats", "dogs"] := by decide
example : parseTags "" = [] := by decide
example : defaultTitle "demo.mp4" = "demo" := by decide
example : defaultTitle "videos/archive.tar.gz" = "archive.tar" := by decide
example : defaultTitle ".hidden" = ".hidden" := by decide
example : defaultTitle "clip" = "clip" := by decide
example : computeTitle (some "") "demo.mp4" = "demo" := by decide
example : computeTitle (some "T") "demo.mp4" = "T" := by decide

/-! ### Concrete fixtures used by witnesses -/

/-- A refresh operation: marks the credential fresh and changes its
serialized identity. -/
def refreshModel : Creds → Creds :=
  fun c => { c with hasToken := true, expired := false, tokenId := c.tokenId + 1 }

/-- Credentials produced by a completed consent flow. -/
def flowCredsW : Creds :=
  { hasToken := true, expired := false, hasRefreshToken := true, tokenId := 100 }

/-- A valid, non-expired loaded credential. -/
def validCredsW : Creds :=
  { hasToken := true, expired := false, hasRefreshToken := false, tokenId := 0 }

/-- An expired loaded credential carrying a refresh token. -/
def expiredCredsW : Creds :=
  { hasToken := true, expired := true, hasRefreshToken := true, tokenId := 1 }

/-- A world in which no video file exists. -/
def worldNoVideo : World :=
  { tokenFile := none, clientSecret := true, videoExists := fun _ => false }

/-- A world with a valid token file and every video file present. -/
def worldValidToken : World :=
  { tokenFile := some validCredsW, clientSecret := true, videoExists := fun _ => true }

/-- A world with an expired-but-refreshable token file. -/
def worldExpiredToken : World :=
  { tokenFile := some expiredCredsW, clientSecret := true, videoExists := fun _ => true }

/-! ### Claims -/

/-- Claim C1, as stated, is false: `main` line 117 computes the title with
Python `or` (`title = args.title or os.path.splitext(...)[0]`), so an
explicitly passed empty `--title` is falsy and the derived default is used,
not the given empty string.  At video `demo.mp4` with `--title ""` the
title used is `"demo"`, not `""`. -/
theorem empty_title_ignored_counterexample :
    computeTitle (some "") "demo.mp4" = defaultTitle "demo.mp4" ∧
    computeTitle (some "") "demo.mp4" ≠ "" :=
  ⟨rfl, by decide⟩

/-- Claim C1 (amended): when `--title` is omitted the title equals the
file's base name with its extension removed, and a given *non-empty*
`--title` overrides that default; a given empty `--title` falls back to the
derived default. -/
theorem title_default_and_override (t v : String) (ht : t ≠ "") :
    computeTitle (some t) v = t ∧
    computeTitle none v = defaultTitle v ∧
    computeTitle (some "") v = defaultTitle v := by
  refine ⟨?_, rfl, rfl⟩
  simp [computeTitle, pyOrStr, ht]

/-- Witness for C1 (amended) at `--title "My Title"`, video `demo.mp4`. -/
theorem title_default_and_override_witness :
    computeTitle (some "My Title") "demo.mp4" = "My Title" :=
  (title_default_and_override "My Title" "demo.mp4" (by decide)).1

/-- Claim C2: every parsed tag is a non-empty string, and when the tag
string consists only of commas and whitespace (in particular when it is
empty) the request body built by `main`/`upload_video` has no `tags` field
in its `snippet` object. -/
theorem tags_trimmed_nonempty_or_omitted (s : String) (ra : RawArgs) (p : Privacy)
    (hsep : ∀ c ∈ ra.tags.toList, c = ',' ∨ isPySpace c = true) :
    (∀ t ∈ parseTags s, t ≠ "") ∧
    jLookup "tags" (snippetOf (mainRequestBody ra p)) = none := by
  constructor
  · intro t ht
    unfold parseTags at ht
    split_ifs at ht with hs
    · simp at ht
    · have := List.mem_filter.mp ht
      simpa using this.2
  · have h0 : parseTags ra.tags = [] := parseTags_all_sep_space _ hsep
    simp [mainRequestBody, mkBody, orNoneTags, h0, snippetOf, jLookup]

/-- Witness for C2 at tag string `"cats, dogs ,, "` and an invocation whose
`--tags` is `", ,, "`: the parsed tags are non-empty strings and the body
has no tags field. -/
theorem tags_trimmed_nonempty_or_omitted_witness :
    ("cats" ∈ parseTags "cats, dogs ,, " → "cats" ≠ "") ∧
    jLookup "tags"
      (snippetOf (mainRequestBody { video := "demo.mp4", tags := ", ,, " } Privacy.priv)) =
      none :=
  ⟨fun hm => (tags_trimmed_nonempty_or_omitted "cats, dogs ,, "
      { video := "demo.mp4", tags := ", ,, " } Privacy.priv (by decide)).1 "cats" hm,
    (tags_trimmed_nonempty_or_omitted "cats, dogs ,, "
      { video := "demo.mp4", tags := ", ,, " } Privacy.priv (by decide)).2⟩

/-- Claim C3, as stated, is false: `upload_video` line 72 passes an
explicit `chunksize=-1` to the `MediaFileUpload` constructor, so the script
does impose a chunk-size policy of its own rather than leaving the
parameter at the library default. -/
theorem media_chunksize_explicit_counterexample :
    (mkMediaFileUpload "video.mp4").chunksize = some (-1) ∧
    (mkMediaFileUpload "video.mp4").chunksize ≠ none :=
  ⟨rfl, by decide⟩

/-- Claim C3 (amended): the `MediaFileUpload` is constructed with an
explicit `chunksize` argument of `-1` (requesting the whole file be sent in
a single request rather than the library's default chunking) and with
`resumable=True`. -/
theorem media_chunksize_minus_one (fp : String) :
    (mkMediaFileUpload fp).chunksize = some (-1) ∧
    (mkMediaFileUpload fp).resumable = true :=
  ⟨rfl, rfl⟩

/-- Claim C4: when the positional video path does not exist (and the CLI
arguments themselves parse), `main` prints a diagnostic and exits with code
1, with no credential operation and no network call in its trace. -/
theorem missing_file_fail_fast (ra : RawArgs) (w : World) (rf : Creds → Creds)
    (fc : Creds) (script : List ChunkStep) (p : Privacy)
    (hp : parsePrivacy ra.privacy = some p)
    (hv : w.videoExists ra.video = false) :
    mainRun ra w rf fc script =
      ([Ev.printMsg ("File not found: " ++ ra.video)], Outcome.exited 1) ∧
    (mainRun ra w rf fc script).fst.any credNetEv = false := by
  have h1 : mainRun ra w rf fc script =
      ([Ev.printMsg ("File not found: " ++ ra.video)], Outcome.exited 1) := by
    unfold mainRun
    rw [hp]
    simp [hv]
  exact ⟨h1, by rw [h1]; rfl⟩

/-- Witness for C4: invoking on `missing.mp4` in a world without that file. -/
theorem missing_file_fail_fast_witness :
    mainRun (defaultArgs "missing.mp4") worldNoVideo refreshModel flowCredsW [] =
      ([Ev.printMsg ("File not found: " ++ "missing.mp4")], Outcome.exited 1) :=
  (missing_file_fail_fast (defaultArgs "missing.mp4") worldNoVideo refreshModel
    flowCredsW [] Privacy.priv rfl rfl).1

/-- Claim C5: the `--privacy` values accepted by argument parsing are
exactly `public`, `unlisted` and `private`; omitting the flag defaults to
`"private"`; and an invocation with any other value is rejected by argparse
(exit code 2) with no credential operation and no network call. -/
theorem privacy_choices_enforced (s v : String) (ra : RawArgs) (w : World)
    (rf : Creds → Creds) (fc : Creds) (script : List ChunkStep)
    (hbad : parsePrivacy ra.privacy = none) :
    ((parsePrivacy s).isSome = true ↔ (s = "public" ∨ s = "unlisted" ∨ s = "private")) ∧
    (defaultArgs v).privacy = "private" ∧
    mainRun ra w rf fc script =
      ([Ev.printMsg "usage error: argument --privacy: invalid choice"],
        Outcome.exited 2) ∧
    (mainRun ra w rf fc script).fst.any credNetEv = false := by
  have h1 : mainRun ra w rf fc script =
      ([Ev.printMsg "usage error: argument --privacy: invalid choice"],
        Outcome.exited 2) := by
    unfold mainRun
    rw [hbad]
  refine ⟨?_, rfl, h1, by rw [h1]; rfl⟩
  unfold parsePrivacy
  split_ifs <;> simp_all

/-- Witness for C5: `--privacy weird` is rejected with exit code 2 before
any credential or network activity. -/
theorem privacy_choices_enforced_witness :
    mainRun { video := "demo.mp4", privacy := "weird" } worldValidToken refreshModel
      flowCredsW [] =
      ([Ev.printMsg "usage error: argument --privacy: invalid choice"],
        Outcome.exited 2) :=
  (privacy_choices_enforced "public" "demo.mp4"
    { video := "demo.mp4", privacy := "weird" } worldValidToken refreshModel
    flowCredsW [] rfl).2.2.1

/-- Claim C6: when the token file exists and the credentials loaded from it
are valid and non-expired, `get_youtube_client` neither runs the
interactive consent flow nor rewrites the token file: it loads the token
and builds the client with the loaded credentials. -/
theorem valid_token_no_consent (w : World) (rf : Creds → Creds) (fc c : Creds)
    (htok : w.tokenFile = some c) (hval : c.valid = true)
    (_hexp : c.expired = false) :
    getYoutubeClient w rf fc = ([Ev.loadToken, Ev.buildClient], some c) ∧
    runsConsentFlow (getYoutubeClient w rf fc).fst = false ∧
    writesTokenFile (getYoutubeClient w rf fc).fst = false := by
  have h1 : getYoutubeClient w rf fc = ([Ev.loadToken, Ev.buildClient], some c) := by
    unfold getYoutubeClient
    rw [htok]
    simp [hval]
  exact ⟨h1, by rw [h1]; rfl, by rw [h1]; rfl⟩

/-- Witness for C6 on a concrete valid token file. -/
theorem valid_token_no_consent_witness :
    getYoutubeClient worldValidToken refreshModel flowCredsW =
      ([Ev.loadToken, Ev.buildClient], some validCredsW) :=
  (valid_token_no_consent worldValidToken refreshModel flowCredsW validCredsW
    rfl rfl rfl).1

/-- Claim C7: when the token file holds an expired credential carrying a
refresh token, `get_youtube_client` performs the refresh call, the
refreshed credential replaces the loaded one, and it is written back to the
token file; the consent flow is not run. -/
theorem expired_token_refreshed_and_rewritten (w : World) (rf : Creds → Creds)
    (fc c : Creds) (htok : w.tokenFile = some c) (hexp : c.expired = true)
    (hrt : c.hasRefreshToken = true) :
    getYoutubeClient w rf fc =
      ([Ev.loadToken, Ev.refreshCall, Ev.writeToken (rf c), Ev.buildClient],
        some (rf c)) ∧
    runsConsentFlow (getYoutubeClient w rf fc).fst = false := by
  have hval : c.valid = false := by simp [Creds.valid, hexp]
  have h1 : getYoutubeClient w rf fc =
      ([Ev.loadToken, Ev.refreshCall, Ev.writeToken (rf c), Ev.buildClient],
        some (rf c)) := by
    unfold getYoutubeClient
    rw [htok]
    simp [hval, hexp, hrt]
  exact ⟨h1, by rw [h1]; rfl⟩

/-- Witness for C7 on a concrete expired-but-refreshable token file. -/
theorem expired_token_refreshed_and_rewritten_witness :
    getYoutubeClient worldExpiredToken refreshModel flowCredsW =
      ([Ev.loadToken, Ev.refreshCall, Ev.writeToken (refreshModel expiredCredsW),
        Ev.buildClient], some (refreshModel expiredCredsW)) :=
  (expired_token_refreshed_and_rewritten worldExpiredToken refreshModel flowCredsW
    expiredCredsW rfl rfl rfl).1

/-- Claim C8: when an `HttpError` is raised during a chunk transfer before
any finished response, `upload_video` catches and logs it, ends the loop
with no finished payload, prints no video identifier, and exits with code
1. -/
theorem chunk_error_exits_one (body : List (String × JVal)) (fp : String)
    (script : List ChunkStep) (h : errBeforeDone script = true) :
    (uploadVideo body fp script).snd = Outcome.exited 1 ∧
    printsVideoId (uploadVideo body fp script).fst = false ∧
    ∃ m, Ev.printHttpError m ∈ (uploadVideo body fp script).fst := by
  obtain ⟨h1, ⟨m, hm⟩, h3⟩ := uploadLoop_err script h
  rcases hu : uploadLoop script with ⟨evs, r⟩
  rw [hu] at h1 hm h3
  have h1' : r = none := h1
  have hm' : Ev.printHttpError m ∈ evs := hm
  have h3' : printsVideoId evs = false := h3
  subst h1'
  have hup : uploadVideo body fp script =
      ([Ev.apiInsert body, Ev.printMsg "Starting upload..."] ++ evs ++
        [Ev.printMsg "The upload failed."], Outcome.exited 1) := by
    simp [uploadVideo, hu]
  rw [hup]
  refine ⟨rfl, ?_, ⟨m, ?_⟩⟩
  · simpa [printsVideoId, List.any_append] using h3'
  · exact List.mem_append.mpr (Or.inl (List.mem_append.mpr (Or.inr hm')))

/-- Witness for C8: a transfer that reports 50% and then raises an
`HttpError` exits with code 1. -/
theorem chunk_error_exits_one_witness :
    (uploadVideo [] "demo.mp4"
      [ChunkStep.progress 50, ChunkStep.httpError "boom"]).snd =
      Outcome.exited 1 :=
  (chunk_error_exits_one [] "demo.mp4"
    [ChunkStep.progress 50, ChunkStep.httpError "boom"] rfl).1

/-- Claim C9: default-title derivation strips only the final extension
(`videos/archive.tar.gz` gives `archive.tar`), keeps a leading-dot name
whole (`.hidden` gives `.hidden`), keeps an extensionless name whole
(`clip` gives `clip`), and never produces the empty string for a path with
a non-empty base name. -/
theorem default_title_strips_final_extension (p : String) (h : basename p ≠ "") :
    defaultTitle "videos/archive.tar.gz" = "archive.tar" ∧
    defaultTitle ".hidden" = ".hidden" ∧
    defaultTitle "clip" = "clip" ∧
    defaultTitle p ≠ "" :=
  ⟨by decide, by decide, by decide, splitextRoot_ne_empty (basename p) h⟩

/-- Witness for C9 at `demo.mp4`. -/
theorem default_title_strips_final_extension_witness :
    defaultTitle "demo.mp4" ≠ "" :=
  (default_title_strips_final_extension "demo.mp4" (by decide)).2.2.2

/-- Claim C10: the request body always carries `snippet.title` (the
computed title), `snippet.description` (even when empty, since the claim
holds for every `ra.description` including `""`), and
`status.privacyStatus`; it carries `snippet.tags` exactly when the parsed
tag list is non-empty; and it carries no other fields. -/
theorem request_body_exact_fields (ra : RawArgs) (p : Privacy) :
    jLookup "title" (snippetOf (mainRequestBody ra p)) =
      some (JVal.str (computeTitle ra.title ra.video)) ∧
    jLookup "description" (snippetOf (mainRequestBody ra p)) =
      some (JVal.str ra.description) ∧
    jLookup "privacyStatus" (statusOf (mainRequestBody ra p)) =
      some (JVal.str (privacyName p)) ∧
    (jLookup "tags" (snippetOf (mainRequestBody ra p)) ≠ none ↔
      parseTags ra.tags ≠ []) ∧
    (mainRequestBody ra p).map Prod.fst = ["snippet", "status"] ∧
    (snippetOf (mainRequestBody ra p)).map Prod.fst =
      (if parseTags ra.tags = [] then ["title", "description"]
        else ["title", "description", "tags"]) ∧
    (statusOf (mainRequestBody ra p)).map Prod.fst = ["privacyStatus"] := by
  by_cases h0 : parseTags ra.tags = [] <;>
    simp [mainRequestBody, mkBody, orNoneTags, snippetOf, statusOf, jLookup, h0]

end UploadYoutube
